import Mathlib

/-!
Shallow embedding of the DuckEx-Server redemption core: the item store
(`internal/models/item.go`), the share/claim handlers
(`internal/handlers/item_handler.go`), the memory-pressure admission gate
(`MemoryMonitor`), and the audit / suspicion engine (`InMemoryAuditService`).
Go `time.Time` values are embedded as natural-number timestamps (seconds);
Go `float64` values as rationals; the Go map `items map[string]*Item` as an
association list keyed by pickup code.
-/

namespace DuckEx

/-- Seconds-resolution timestamp, the embedding of Go `time.Time`.
`a < b` embeds `a.Before(b)`; `b < a` embeds `a.After(b)`. -/
abbrev Timestamp := Nat

/-- `models.Item` from `internal/models/item.go`. -/
structure Item where
  id : String
  name : String
  description : String
  typeID : Int
  num : Int
  durability : Rat
  durabilityLoss : Rat
  sharerID : String
  pickupCode : String
  createdAt : Timestamp
  expiresAt : Timestamp
  isClaimed : Bool
  claimerID : String
deriving DecidableEq

/-- The in-memory item map `InMemoryItemRepository.items`, embedded as an
association list from pickup code to item (at most one binding per key is
maintained by the operations below, matching the Go map). -/
abbrev Store := List (String × Item)

/-- Go map read `r.items[pickupCode]`. -/
def storeLookup (s : Store) (code : String) : Option Item :=
  (s.find? (fun p => p.1 == code)).map (fun p => p.2)

/-- Go map delete `delete(r.items, pickupCode)`. -/
def storeErase (s : Store) (code : String) : Store :=
  s.filter (fun p => p.1 != code)

/-- Go map assignment `r.items[code] = item` (overwrites any existing binding). -/
def storeInsert (s : Store) (code : String) (item : Item) : Store :=
  (code, item) :: storeErase s code

/-- `InMemoryItemRepository.GetTotalCount`: `len(r.items)`. -/
def getTotalCount (s : Store) : Nat :=
  s.length

/-- `InMemoryItemRepository.Create` (item.go lines 89-94): unconditionally
assigns into the map and returns a nil error.  The Go `error` result is
embedded as `Option String`, `none` standing for `nil`. -/
def inMemoryCreate (s : Store) (item : Item) : Option String × Store :=
  (none, storeInsert s item.pickupCode item)

/-- `InMemoryItemRepository.GetByPickupCode` (item.go lines 97-120): returns
`nil` when the code is absent; when present but expired
(`GetCurrentTime().After(item.ExpiresAt)`, i.e. `item.expiresAt < now`)
deletes the entry and returns `nil`; otherwise returns the item. -/
def getByPickupCode (now : Timestamp) (s : Store) (code : String) : Option Item × Store :=
  match storeLookup s code with
  | none => (none, s)
  | some item =>
    if item.expiresAt < now then (none, storeErase s code)
    else (some item, s)

/-- `InMemoryItemRepository.DeleteExpired` (item.go lines 131-141): removes
every entry with `item.ExpiresAt.Before(now)`, i.e. `expiresAt < now`. -/
def deleteExpired (now : Timestamp) (s : Store) : Store :=
  s.filter (fun p => ! decide (p.2.expiresAt < now))

/-- Outcome of `ItemHandler.ClaimItem`, one constructor per response the
handler emits after a well-formed request: 404 not-found, 409
already-claimed, 410 expired, and 200 success carrying the claimed item. -/
inductive ClaimOutcome where
  | notFound
  | alreadyClaimed
  | expired
  | success (item : Item)
deriving DecidableEq

/-- `ItemHandler.ClaimItem` (item_handler.go lines 161-266) for a well-formed
request: looks the code up (lazily expiring), then checks `IsClaimed`, then
expiry, then marks the item claimed, deletes it from the repository
(remove-on-claim policy, line 240), and answers 200 with the claimed item. -/
def claimItem (now : Timestamp) (s : Store) (code claimerID : String) :
    ClaimOutcome × Store :=
  match getByPickupCode now s code with
  | (none, s1) => (ClaimOutcome.notFound, s1)
  | (some item, s1) =>
    if item.isClaimed then (ClaimOutcome.alreadyClaimed, s1)
    else if item.expiresAt < now then (ClaimOutcome.expired, s1)
    else (ClaimOutcome.success { item with isClaimed := true, claimerID := claimerID },
          storeErase s1 code)

/-- `expirationDuration` of the `utils` code-generator file cited by the spec
(`crypto/rand` variant): 7 days, in seconds. -/
def utilsExpirationDuration : Nat := 7 * 24 * 3600

/-- `utils.GetExpirationTime()`: `time.Now().Add(expirationDuration)`. -/
def utilsGetExpirationTime (now : Timestamp) : Timestamp :=
  now + utilsExpirationDuration

/-- `models.GetExpirationTime()` (item.go init): `time.Now().Add(24 * time.Hour)`. -/
def modelsGetExpirationTime (now : Timestamp) : Timestamp :=
  now + 24 * 3600

/-- `handlers.ShareItemRequest`. -/
structure ShareItemRequest where
  name : String
  description : String
  typeID : Int
  num : Int
  durability : Rat
  durabilityLoss : Rat
  sharerID : String
deriving DecidableEq

/-- `handlers.ShareItemResponse`; `expiresAt` holds the timestamp the handler
formats into the response. -/
structure ShareItemResponse where
  message : String
  pickupCode : String
  expiresAt : Timestamp
deriving DecidableEq

/-- `ItemHandler.ShareItem` (item_handler.go lines 107-150) after validation,
given the generated pickup code: computes `expiresAt := utils.GetExpirationTime()`
for the response, but stores `ExpiresAt: models.GetExpirationTime()` on the
item.  Returns the stored item and the response. -/
def shareItem (now : Timestamp) (pickupCode : String) (req : ShareItemRequest) :
    Item × ShareItemResponse :=
  let expiresAt := utilsGetExpirationTime now
  let item : Item :=
    { id := toString now ++ req.sharerID
      name := req.name
      description := req.description
      typeID := req.typeID
      num := req.num
      durability := if 0 < req.durability then req.durability else 0
      durabilityLoss := if 0 < req.durabilityLoss then req.durabilityLoss else 0
      sharerID := req.sharerID
      pickupCode := pickupCode
      createdAt := now
      expiresAt := modelsGetExpirationTime now
      isClaimed := false
      claimerID := "" }
  (item, { message := "Item shared successfully! Quack!"
           pickupCode := pickupCode
           expiresAt := expiresAt })

/-- `MemoryMonitor.disableThreshold` (`NewMemoryMonitor`): 0.8. -/
def disableThreshold : Rat := mkRat 8 10

/-- `MemoryMonitor.enableThreshold` (`NewMemoryMonitor`): 0.7. -/
def enableThreshold : Rat := mkRat 7 10

/-- `MemoryMonitor.GetMemoryUsagePercentage`: returns 0 when the configured
ceiling `maxMemoryMB` is at most 0, else `usage / maxMemoryMB`.  Go `int64`
is embedded as `Int`, `float64` as `Rat`. -/
def getMemoryUsagePercentage (maxMemoryMB usageMB : Int) : Rat :=
  if maxMemoryMB ≤ 0 then 0
  else (usageMB : Rat) / (maxMemoryMB : Rat)

/-- The state update of `MemoryMonitor.UpdateStatus` on the `shareDisabled`
flag, given the freshly computed usage percentage. -/
def updateStatus (percentage : Rat) (shareDisabled : Bool) : Bool :=
  if disableThreshold ≤ percentage then true
  else if percentage ≤ enableThreshold ∧ shareDisabled = true then false
  else shareDisabled

/-- Folding `UpdateStatus` over a trace of sampled usage percentages. -/
def runSamples (trace : List Rat) (shareDisabled : Bool) : Bool :=
  trace.foldl (fun g p => updateStatus p g) shareDisabled

/-- `utils.AuditAction` is a string type in Go. -/
abbrev AuditAction := String

/-- `ActionClaim`. -/
def ActionClaim : AuditAction := "claim"

/-- `utils.AuditLevel` is a string type in Go. -/
abbrev AuditLevel := String

/-- `LevelInfo`. -/
def LevelInfo : AuditLevel := "info"

/-- `LevelWarning`. -/
def LevelWarning : AuditLevel := "warning"

/-- `LevelAlert`. -/
def LevelAlert : AuditLevel := "alert"

/-- `utils.AuditRecord`.  A zero `timestamp` embeds Go's zero `time.Time`
(`Timestamp.IsZero`). -/
structure AuditRecord where
  timestamp : Timestamp
  action : AuditAction
  level : AuditLevel
  userID : String
  pickupCode : String
  itemID : String
  message : String
  ipAddress : String
  userAgent : String
  statusCode : Int
  isSuspicious : Bool
  suspiciousReason : String
deriving DecidableEq

/-- The mutable state of `utils.InMemoryAuditService`: the record list and the
two attempt-counter maps (embedded as total functions defaulting to 0, which
is how a Go `map[string]int` reads). -/
structure AuditState where
  records : List AuditRecord
  codeAttempts : String → Nat
  userAttempts : String → Nat

/-- Go `m[k]++` on a counter map. -/
def bumpCounter (f : String → Nat) (k : String) : String → Nat :=
  fun x => if x = k then f x + 1 else f x

/-- `InMemoryAuditService.LogRecord` (part_004 lines 113-163): stamps `now`
onto a zero timestamp, increments the code / user attempt counters for
non-empty keys, appends the record, and trims the list to its last 5000
entries once it exceeds 10000. -/
def logRecord (now : Timestamp) (st : AuditState) (record : AuditRecord) : AuditState :=
  let record := if record.timestamp = 0 then { record with timestamp := now } else record
  let codeAttempts :=
    if record.pickupCode ≠ "" then bumpCounter st.codeAttempts record.pickupCode
    else st.codeAttempts
  let userAttempts :=
    if record.userID ≠ "" then bumpCounter st.userAttempts record.userID
    else st.userAttempts
  let records := st.records ++ [record]
  let records := if 10000 < records.length then records.drop (records.length - 5000) else records
  { records := records, codeAttempts := codeAttempts, userAttempts := userAttempts }

/-- The audit record that `InMemoryAuditService.LogClaim` (part_004 lines
181-219) constructs, given the pre-existing attempt count it read for the
pickup code: info/success or warning/failure base fields, escalated to
alert + suspicious when that count exceeds 3. -/
def logClaimRecord (codeAttemptCount : Nat)
    (userID pickupCode itemID ipAddress userAgent : String) (success : Bool) :
    AuditRecord :=
  { timestamp := 0
    action := ActionClaim
    level :=
      if 3 < codeAttemptCount then LevelAlert
      else if success then LevelInfo else LevelWarning
    userID := userID
    pickupCode := pickupCode
    itemID := itemID
    message := if success then "物品领取成功" else "物品领取失败"
    ipAddress := ipAddress
    userAgent := userAgent
    statusCode := if success then 200 else 400
    isSuspicious := decide (3 < codeAttemptCount)
    suspiciousReason :=
      if 3 < codeAttemptCount then
        "取件码尝试次数超限 (" ++ toString codeAttemptCount ++ ")"
      else "" }

/-- `InMemoryAuditService.LogClaim`: reads the current attempt count for the
code, builds the record, and hands it to `LogRecord` (which then increments
the counters). -/
def logClaim (now : Timestamp) (st : AuditState)
    (userID pickupCode itemID ipAddress userAgent : String) (success : Bool) :
    AuditState :=
  logRecord now st
    (logClaimRecord (st.codeAttempts pickupCode) userID pickupCode itemID ipAddress userAgent success)

/-- `utils.PaginatedLogs`. -/
structure PaginatedLogs where
  total : Nat
  page : Nat
  pageSize : Nat
  totalPages : Nat
  logs : List AuditRecord
deriving DecidableEq

/-- The Go `filters map[string]string` of `GetLogsWithPagination`: an entry
that is absent or empty disables that filter, matching the Go
`if v, ok := filters[k]; ok && v != ""` tests. -/
structure AuditFilters where
  action : Option String
  level : Option String
  userID : Option String
  pickupCode : Option String
  timeRange : Option String
deriving DecidableEq

/-- No filters supplied. -/
def emptyFilters : AuditFilters :=
  { action := none, level := none, userID := none, pickupCode := none, timeRange := none }

/-- Lowercase a string character by character (`strings.ToLower` on the ASCII
identifiers the service handles). -/
def lowerStr (s : String) : String :=
  String.mk (s.data.map Char.toLower)

/-- Uppercase a string character by character (`strings.ToUpper`). -/
def upperStr (s : String) : String :=
  String.mk (s.data.map Char.toUpper)

/-- `strings.Contains hay needle`. -/
def containsSub (hay needle : String) : Bool :=
  hay.data.tails.any (fun t => needle.data.isPrefixOf t)

/-- A single optional filter entry: skipped when absent or empty. -/
def passOpt (entry : Option String) (check : String → Bool) : Bool :=
  match entry with
  | none => true
  | some v => if v = "" then true else check v

/-- The relative cutoff the `time_range` filter computes; an unrecognized
value leaves the Go `cutoffTime` zero, which disables the filter. -/
def timeCutoff (now : Timestamp) (timeRange : String) : Option Timestamp :=
  if timeRange = "1h" then some (now - 3600)
  else if timeRange = "6h" then some (now - 6 * 3600)
  else if timeRange = "24h" then some (now - 24 * 3600)
  else if timeRange = "7d" then some (now - 7 * 24 * 3600)
  else none

/-- Whether a record survives every filter of `GetLogsWithPagination`
(the negation of each `continue` in part_004 lines 342-389). -/
def filterPass (now : Timestamp) (f : AuditFilters) (r : AuditRecord) : Bool :=
  passOpt f.action (fun a => r.action == a) &&
  passOpt f.level (fun l => r.level == l) &&
  passOpt f.userID (fun u => containsSub (lowerStr r.userID) (lowerStr u)) &&
  passOpt f.pickupCode (fun c => containsSub (upperStr r.pickupCode) (upperStr c)) &&
  passOpt f.timeRange (fun tr =>
    if tr = "all" then true
    else
      match timeCutoff now tr with
      | none => true
      | some cutoff => ! decide (r.timestamp < cutoff))

/-- One pass of the bubble sort of part_004 lines 392-398, carrying the
record currently under the cursor: at each adjacent pair the record with the
older timestamp is swapped toward the end. -/
def bubblePassFrom (cur : AuditRecord) : List AuditRecord → List AuditRecord
  | [] => [cur]
  | b :: rest =>
    if cur.timestamp < b.timestamp then b :: bubblePassFrom cur rest
    else cur :: bubblePassFrom b rest

/-- One full bubble pass over the record list. -/
def bubblePassDesc : List AuditRecord → List AuditRecord
  | [] => []
  | a :: rest => bubblePassFrom a rest

/-- Iterated bubble passes. -/
def bubbleAux : Nat → List AuditRecord → List AuditRecord
  | 0, l => l
  | Nat.succ n, l => bubbleAux n (bubblePassDesc l)

/-- Reverse-chronological (newest first) bubble sort of the filtered records. -/
def sortByTimestampDesc (l : List AuditRecord) : List AuditRecord :=
  bubbleAux l.length l

/-- `InMemoryAuditService.GetLogsWithPagination` (part_004 lines 322-429):
clamps the page to at least 1 and the page size into [1,100] (default 10),
filters, sorts newest-first, and slices `filtered[offset:end]`, returning an
empty page when the offset is past the end. -/
def getLogsWithPagination (now : Timestamp) (page0 pageSize0 : Nat)
    (filters : AuditFilters) (st : AuditState) : PaginatedLogs :=
  let page := if page0 < 1 then 1 else page0
  let pageSize := if pageSize0 < 1 then 10 else if 100 < pageSize0 then 100 else pageSize0
  let filtered := st.records.filter (filterPass now filters)
  let sorted := sortByTimestampDesc filtered
  let total := sorted.length
  let totalPages := (total + pageSize - 1) / pageSize
  let offset := (page - 1) * pageSize
  let e := min (offset + pageSize) total
  let logs := if offset < total then (sorted.drop offset).take (e - offset) else []
  { total := total, page := page, pageSize := pageSize, totalPages := totalPages, logs := logs }

/-- The per-request control state of one `ClaimItem` goroutine, split at its
two atomic repository operations: before `GetByPickupCode`, after it (holding
the returned pointer), and finished with a response.  The handler's local
checks and the final `Delete` form the second atomic step; `GetByPickupCode`
is the first (each holds the repository mutex only for itself). -/
inductive ThreadState where
  | start
  | got (item : Option Item)
  | done (outcome : ClaimOutcome)
deriving DecidableEq

/-- One atomic step of a `ClaimItem` goroutine against the shared store. -/
def threadStep (now : Timestamp) (code claimerID : String) :
    ThreadState → Store → ThreadState × Store
  | ThreadState.start, s =>
    let r := getByPickupCode now s code
    (ThreadState.got r.1, r.2)
  | ThreadState.got none, s => (ThreadState.done ClaimOutcome.notFound, s)
  | ThreadState.got (some item), s =>
    if item.isClaimed then (ThreadState.done ClaimOutcome.alreadyClaimed, s)
    else if item.expiresAt < now then (ThreadState.done ClaimOutcome.expired, s)
    else (ThreadState.done
            (ClaimOutcome.success { item with isClaimed := true, claimerID := claimerID }),
          storeErase s code)
  | ThreadState.done o, s => (ThreadState.done o, s)

/-- Combined state of two concurrent `ClaimItem` calls over the shared store. -/
structure TwoClaims where
  t1 : ThreadState
  t2 : ThreadState
  store : Store
deriving DecidableEq

/-- Run an interleaving of the two goroutines: `true` schedules a step of the
first thread (claimer `c1`), `false` a step of the second (claimer `c2`). -/
def runSchedule (now : Timestamp) (code c1 c2 : String) :
    List Bool → TwoClaims → TwoClaims
  | [], st => st
  | first :: rest, st =>
    if first then
      let r := threadStep now code c1 st.t1 st.store
      runSchedule now code c1 c2 rest { t1 := r.1, t2 := st.t2, store := r.2 }
    else
      let r := threadStep now code c2 st.t2 st.store
      runSchedule now code c1 c2 rest { t1 := st.t1, t2 := r.1, store := r.2 }

/-- Whether a claim outcome is the 200 success response. -/
def isSuccess : ClaimOutcome → Bool
  | ClaimOutcome.success _ => true
  | _ => false

/-- Whether a goroutine has finished with a success response. -/
def threadSucceeded : ThreadState → Bool
  | ThreadState.done o => isSuccess o
  | _ => false

/-! Helper lemmas about the store operations. -/

/-- After erasing a code, looking it up yields nothing. -/
theorem storeLookup_erase_self (s : Store) (code : String) :
    storeLookup (storeErase s code) code = none := by
  have h : (storeErase s code).find? (fun p => p.1 == code) = none := by
    rw [List.find?_eq_none]
    intro p hp
    have h2 := (List.mem_filter.mp hp).2
    simp only [bne_iff_ne, ne_eq] at h2
    simp [h2]
  unfold storeLookup
  rw [h]
  rfl

/-- A successful lookup exhibits a bound entry with the looked-up key. -/
theorem storeLookup_some_mem {s : Store} {code : String} {item : Item}
    (h : storeLookup s code = some item) :
    ∃ p, p ∈ s ∧ p.1 = code ∧ p.2 = item := by
  unfold storeLookup at h
  cases hf : s.find? (fun p => p.1 == code) with
  | none => rw [hf] at h; cases h
  | some q =>
    rw [hf] at h
    have hq := List.find?_some hf
    simp only [beq_iff_eq] at hq
    have hm : q ∈ s := List.mem_of_find?_eq_some hf
    exact ⟨q, hm, hq, by simpa using h⟩

/-- Filtering out a present element strictly shrinks a list. -/
theorem length_filter_lt_of_mem {α : Type} (f : α → Bool) :
    ∀ (l : List α) (a : α), a ∈ l → f a = false → (l.filter f).length < l.length := by
  intro l
  induction l with
  | nil => intro a ha _; cases ha
  | cons b bs ih =>
    intro a ha hfa
    rcases List.mem_cons.mp ha with h | h
    · subst h
      rw [List.filter_cons, hfa]
      simpa using Nat.lt_succ_of_le (List.length_filter_le f bs)
    · have hlt := ih a h hfa
      cases hb : f b <;> simp [List.filter_cons, hb] <;> omega

/-! Concrete fixtures used by the claim theorems. -/

/-- A live, unclaimed item with pickup code `123456`, expiring at `t = 100`. -/
def liveItem : Item :=
  { id := "i1", name := "Sword", description := "sharp", typeID := 1, num := 1,
    durability := 0, durabilityLoss := 0, sharerID := "A", pickupCode := "123456",
    createdAt := 0, expiresAt := 100, isClaimed := false, claimerID := "" }

/-- A second, different item carrying the same pickup code `123456`. -/
def collidingItem : Item :=
  { id := "i2", name := "Shield", description := "sturdy", typeID := 2, num := 1,
    durability := 0, durabilityLoss := 0, sharerID := "Z", pickupCode := "123456",
    createdAt := 1, expiresAt := 100, isClaimed := false, claimerID := "" }

/-- An item whose expiration timestamp is exactly `5`. -/
def boundaryItem : Item :=
  { id := "i3", name := "Bow", description := "bent", typeID := 3, num := 1,
    durability := 0, durabilityLoss := 0, sharerID := "A", pickupCode := "654321",
    createdAt := 0, expiresAt := 5, isClaimed := false, claimerID := "" }

/-- An audit-service state with empty history and zeroed attempt counters. -/
def freshAuditState : AuditState :=
  { records := [], codeAttempts := fun _ => 0, userAttempts := fun _ => 0 }

/-- A claim audit record at timestamp `t` (fields other than the timestamp are
fixed), used to populate the pagination fixtures. -/
def auditFixture (t : Timestamp) : AuditRecord :=
  { timestamp := t, action := ActionClaim, level := LevelInfo, userID := "u",
    pickupCode := "123456", itemID := "i", message := "m", ipAddress := "ip",
    userAgent := "ua", statusCode := 200, isSuspicious := false, suspiciousReason := "" }

/-- An audit-service state holding five records with timestamps 1..5. -/
def fiveRecordState : AuditState :=
  { records := [auditFixture 1, auditFixture 2, auditFixture 3, auditFixture 4, auditFixture 5],
    codeAttempts := fun _ => 0, userAttempts := fun _ => 0 }

/-- Claim C1: for a live, unclaimed code, N concurrent claim calls yield
exactly one success.  Refuted on the code: the handler performs
`GetByPickupCode` and `Delete` as two separate atomic repository operations
with no per-code critical section around the check-then-act sequence, so the
interleaving read, read, act, act lets BOTH callers answer 200 success (the
store does end empty, but two winners were reported). -/
theorem claimRace_two_winners :
    let s0 : Store := [("123456", liveItem)]
    let final := runSchedule 0 "123456" "B" "D" [true, false, true, false]
      { t1 := ThreadState.start, t2 := ThreadState.start, store := s0 }
    threadSucceeded final.t1 = true ∧ threadSucceeded final.t2 = true ∧
    final.store = [] := by
  decide

/-- Claim C2: creating a record whose pickup code collides with a live record
fails with DuplicateCode and leaves the existing record in place.  Refuted on
`InMemoryItemRepository.Create`: it returns a nil error (success) and the map
assignment silently replaces the live record. -/
theorem create_overwrites_duplicate_code :
    let s0 : Store := [("123456", liveItem)]
    let r := inMemoryCreate s0 collidingItem
    r.1 = none ∧
    storeLookup r.2 "123456" = some collidingItem ∧
    collidingItem ≠ liveItem ∧
    liveItem.isClaimed = false := by
  decide

/-- Claim C3: the expiration timestamp returned by the share response equals
the stored expiration timestamp (both creation + one fixed TTL).  Refuted on
`ShareItem`: the response carries `utils.GetExpirationTime()` (now + 7 days)
while the stored item carries `models.GetExpirationTime()` (now + 24 hours),
so at `now = 0` the response says 604800 but the store says 86400. -/
theorem share_response_expiry_differs_from_stored :
    let req : ShareItemRequest :=
      { name := "Sword", description := "sharp", typeID := 1, num := 1,
        durability := 0, durabilityLoss := 0, sharerID := "A" }
    let r := shareItem 0 "123456" req
    r.2.expiresAt = 604800 ∧
    r.1.expiresAt = 86400 ∧
    r.1.createdAt = 0 ∧
    r.2.expiresAt ≠ r.1.expiresAt := by
  decide

/-- Claim C4: looking up a code whose record has already expired reports
absent and removes the record (so the total count drops); looking up a
non-expired record returns it and leaves the store unchanged. -/
theorem lookup_lazy_expiration (now : Timestamp) (s : Store) (code : String)
    (item : Item) (h : storeLookup s code = some item) :
    (item.expiresAt < now →
      (getByPickupCode now s code).1 = none ∧
      storeLookup (getByPickupCode now s code).2 code = none ∧
      getTotalCount (getByPickupCode now s code).2 < getTotalCount s) ∧
    (¬ item.expiresAt < now → getByPickupCode now s code = (some item, s)) := by
  constructor
  · intro hex
    have hg : getByPickupCode now s code = (none, storeErase s code) := by
      unfold getByPickupCode
      rw [h]
      simp [hex]
    rw [hg]
    refine ⟨rfl, storeLookup_erase_self s code, ?_⟩
    obtain ⟨p, hp, hk, _⟩ := storeLookup_some_mem h
    unfold getTotalCount storeErase
    apply length_filter_lt_of_mem _ _ p hp
    simp [hk]
  · intro hex
    unfold getByPickupCode
    rw [h]
    simp [hex]

/-- Witness for `lookup_lazy_expiration` at a concrete expired record. -/
theorem lookup_lazy_expiration_witness :
    storeLookup [("654321", boundaryItem)] "654321" = some boundaryItem ∧
    ((boundaryItem.expiresAt < 10 →
      (getByPickupCode 10 [("654321", boundaryItem)] "654321").1 = none ∧
      storeLookup (getByPickupCode 10 [("654321", boundaryItem)] "654321").2 "654321" = none ∧
      getTotalCount (getByPickupCode 10 [("654321", boundaryItem)] "654321").2 <
        getTotalCount [("654321", boundaryItem)]) ∧
    (¬ boundaryItem.expiresAt < 10 →
      getByPickupCode 10 [("654321", boundaryItem)] "654321" =
        (some boundaryItem, [("654321", boundaryItem)]))) :=
  ⟨by decide, lookup_lazy_expiration 10 [("654321", boundaryItem)] "654321" boundaryItem (by decide)⟩

/-- Claim C5, as stated: after a successful claim of code C by B, an immediate
claim of C by D returns AlreadyClaimed.  Refuted on the code: the handler
deletes the record on successful claim, so D's claim answers 404 not-found,
not 409 already-claimed. -/
theorem second_claim_not_alreadyClaimed :
    let s0 : Store := [("123456", liveItem)]
    let r1 := claimItem 0 s0 "123456" "B"
    let r2 := claimItem 0 r1.2 "123456" "D"
    r1.1 = ClaimOutcome.success { liveItem with isClaimed := true, claimerID := "B" } ∧
    r2.1 = ClaimOutcome.notFound ∧
    r2.1 ≠ ClaimOutcome.alreadyClaimed := by
  decide

/-- Claim C5 amended: after a successful claim of a live, unclaimed code by B
(success response carrying the item with `isClaimed = true` and
`claimerID = B`), any immediately following claim of that code returns
NotFound — never success — because the record is removed on claim. -/
theorem second_claim_notFound (now now2 : Timestamp) (s : Store) (code : String)
    (item : Item) (b d : String)
    (h : storeLookup s code = some item)
    (hc : item.isClaimed = false)
    (he : ¬ item.expiresAt < now) :
    (claimItem now s code b).1
      = ClaimOutcome.success { item with isClaimed := true, claimerID := b } ∧
    (claimItem now2 (claimItem now s code b).2 code d).1 = ClaimOutcome.notFound := by
  have hg : getByPickupCode now s code = (some item, s) := by
    unfold getByPickupCode
    rw [h]
    simp [he]
  have h1 : claimItem now s code b =
      (ClaimOutcome.success { item with isClaimed := true, claimerID := b },
       storeErase s code) := by
    unfold claimItem
    rw [hg]
    simp [hc, he]
  have hg2 : getByPickupCode now2 (storeErase s code) code = (none, storeErase s code) := by
    unfold getByPickupCode
    rw [storeLookup_erase_self]
  refine ⟨by rw [h1], ?_⟩
  rw [h1]
  show (claimItem now2 (storeErase s code) code d).1 = ClaimOutcome.notFound
  unfold claimItem
  rw [hg2]

/-- Witness for `second_claim_notFound` at a concrete live item. -/
theorem second_claim_notFound_witness :
    (claimItem 0 [("123456", liveItem)] "123456" "B").1
      = ClaimOutcome.success { liveItem with isClaimed := true, claimerID := "B" } ∧
    (claimItem 0 (claimItem 0 [("123456", liveItem)] "123456" "B").2 "123456" "D").1
      = ClaimOutcome.notFound :=
  second_claim_notFound 0 0 [("123456", liveItem)] "123456" liveItem "B" "D"
    (by decide) (by decide) (by decide)

/-- Claim C6, as stated: after `deleteExpired` runs at time `now`, no record
whose expiration is AT or before `now` remains.  Refuted at the boundary: a
record whose expiration timestamp equals `now` survives, because the sweep
deletes only records with `ExpiresAt.Before(now)` (strict). -/
theorem deleteExpired_keeps_boundary_record :
    ("654321", boundaryItem) ∈ deleteExpired 5 [("654321", boundaryItem)] ∧
    boundaryItem.expiresAt ≤ 5 := by
  decide

/-- Claim C6 amended: `deleteExpired` at time `now` removes exactly the
records whose expiration timestamp is strictly before `now`; every record
whose expiration is at or after `now` (boundary included) is retained
unchanged. -/
theorem deleteExpired_strictly_before (now : Timestamp) (s : Store) :
    (∀ p, p ∈ deleteExpired now s → ¬ p.2.expiresAt < now) ∧
    (∀ p, p ∈ s → ¬ p.2.expiresAt < now → p ∈ deleteExpired now s) ∧
    (∀ p, p ∈ s → p.2.expiresAt < now → p ∉ deleteExpired now s) := by
  unfold deleteExpired
  refine ⟨fun p hp => ?_, fun p hp hne => ?_, fun p _ hex hmem => ?_⟩
  · simpa using (List.mem_filter.mp hp).2
  · exact List.mem_filter.mpr ⟨hp, by simpa using hne⟩
  · have h2 := (List.mem_filter.mp hmem).2
    rw [Bool.not_eq_true', decide_eq_false_iff_not] at h2
    exact h2 hex

/-- Witness for `deleteExpired_strictly_before`: the boundary record is kept. -/
theorem deleteExpired_strictly_before_witness :
    ("654321", boundaryItem) ∈ deleteExpired 5 [("654321", boundaryItem)] :=
  (deleteExpired_strictly_before 5 [("654321", boundaryItem)]).2.1
    ("654321", boundaryItem) (by decide) (by decide)

/-- Claim C7: the admission gate closes exactly when a sample is at or above
the 0.8 disable threshold, stays closed for samples strictly between 0.7 and
0.8, reopens exactly when a sample is at or below the 0.7 enable threshold,
and on the trace 0.85, 0.75, 0.65 it closes, stays closed, then reopens. -/
theorem admission_hysteresis :
    (∀ pct : Rat, updateStatus pct false = true ↔ disableThreshold ≤ pct) ∧
    (∀ pct : Rat, enableThreshold < pct → pct < disableThreshold →
      updateStatus pct true = true) ∧
    (∀ pct : Rat, updateStatus pct true = false ↔ pct ≤ enableThreshold) ∧
    runSamples [mkRat 85 100] false = true ∧
    runSamples [mkRat 85 100, mkRat 75 100] false = true ∧
    runSamples [mkRat 85 100, mkRat 75 100, mkRat 65 100] false = false := by
  refine ⟨?_, ?_, ?_, by decide, by decide, by decide⟩
  · intro pct
    by_cases h : disableThreshold ≤ pct <;> simp [updateStatus, h]
  · intro pct h7 h8
    have hd : ¬ disableThreshold ≤ pct := not_le.mpr h8
    have he : ¬ pct ≤ enableThreshold := not_le.mpr h7
    simp [updateStatus, hd, he]
  · intro pct
    by_cases h8 : disableThreshold ≤ pct
    · have h7 : ¬ pct ≤ enableThreshold := by
        have hlt : enableThreshold < disableThreshold := by decide
        intro hle
        exact absurd h8 (not_le.mpr (lt_of_le_of_lt hle hlt))
      simp [updateStatus, h8, h7]
    · by_cases h7 : pct ≤ enableThreshold <;> simp [updateStatus, h8, h7]

/-- Witness for `admission_hysteresis`: a 0.75 sample keeps the gate closed. -/
theorem admission_hysteresis_witness :
    updateStatus (mkRat 3 4) true = true :=
  admission_hysteresis.2.1 (mkRat 3 4) (by decide) (by decide)

/-- Claim C8: a successful claim's audit record is alert-severity and
suspicious exactly when the code's attempt counter, read before this event is
recorded, exceeds 3; otherwise it is info-severity and not suspicious.  The
record is built from the pre-increment counter and only then handed to
`LogRecord`, which performs the increments. -/
theorem successful_claim_suspicious_iff (st : AuditState) (now : Timestamp)
    (userID pickupCode itemID ipAddress userAgent : String) (r : AuditRecord)
    (hr : r = logClaimRecord (st.codeAttempts pickupCode)
            userID pickupCode itemID ipAddress userAgent true) :
    logClaim now st userID pickupCode itemID ipAddress userAgent true
      = logRecord now st r ∧
    ((r.level = LevelAlert ∧ r.isSuspicious = true) ↔ 3 < st.codeAttempts pickupCode) ∧
    (st.codeAttempts pickupCode ≤ 3 → r.level = LevelInfo ∧ r.isSuspicious = false) := by
  subst hr
  refine ⟨rfl, ?_, ?_⟩
  · by_cases h : 3 < st.codeAttempts pickupCode <;>
      simp [logClaimRecord, h]
  · intro hle
    have h : ¬ 3 < st.codeAttempts pickupCode := not_lt.mpr hle
    simp [logClaimRecord, h]

/-- Witness for `successful_claim_suspicious_iff` on a fresh audit state. -/
theorem successful_claim_suspicious_iff_witness :
    (logClaimRecord (freshAuditState.codeAttempts "123456")
        "B" "123456" "i1" "1.2.3.4" "ua" true).level = LevelInfo ∧
    (logClaimRecord (freshAuditState.codeAttempts "123456")
        "B" "123456" "i1" "1.2.3.4" "ua" true).isSuspicious = false :=
  (successful_claim_suspicious_iff freshAuditState 0 "B" "123456" "i1" "1.2.3.4" "ua"
    _ rfl).2.2 (by decide)

/-- Claim C9: over five matching records, page 1 with page size 2 returns
exactly the two newest records (reverse-chronological) with total pages 3;
page 10 returns an empty list with the same total; and any requested page
size above 100 is clamped to 100. -/
theorem audit_pagination :
    ((getLogsWithPagination 100 1 2 emptyFilters fiveRecordState).logs
        = [auditFixture 5, auditFixture 4] ∧
     (getLogsWithPagination 100 1 2 emptyFilters fiveRecordState).total = 5 ∧
     (getLogsWithPagination 100 1 2 emptyFilters fiveRecordState).totalPages = 3) ∧
    ((getLogsWithPagination 100 10 2 emptyFilters fiveRecordState).logs = [] ∧
     (getLogsWithPagination 100 10 2 emptyFilters fiveRecordState).total = 5) ∧
    (∀ pageSize0 : Nat, 100 < pageSize0 →
      (getLogsWithPagination 100 1 pageSize0 emptyFilters fiveRecordState).pageSize = 100) := by
  refine ⟨by decide, by decide, ?_⟩
  intro ps h
  have h1 : ¬ ps < 1 := by omega
  simp [getLogsWithPagination, h1, h]

/-- Witness for `audit_pagination`: a requested page size of 150 is clamped. -/
theorem audit_pagination_witness :
    (getLogsWithPagination 100 1 150 emptyFilters fiveRecordState).pageSize = 100 :=
  audit_pagination.2.2 150 (by decide)

/-- Claim C10: with a ceiling of at most 0 MB the computed usage ratio is 0
(the division is guarded), and a sample with that ratio leaves the gate open
— `UpdateStatus` yields writes-enabled from any prior gate state. -/
theorem zero_ceiling_never_disables (maxMemoryMB usageMB : Int) (g : Bool)
    (h : maxMemoryMB ≤ 0) :
    getMemoryUsagePercentage maxMemoryMB usageMB = 0 ∧
    updateStatus (getMemoryUsagePercentage maxMemoryMB usageMB) g = false := by
  have h0 : getMemoryUsagePercentage maxMemoryMB usageMB = 0 := by
    unfold getMemoryUsagePercentage
    rw [if_pos h]
  refine ⟨h0, ?_⟩
  rw [h0]
  have hd : ¬ disableThreshold ≤ (0 : Rat) := by decide
  have he : (0 : Rat) ≤ enableThreshold := by decide
  cases g
  · simp [updateStatus, hd]
  · simp [updateStatus, hd, he]

/-- Witness for `zero_ceiling_never_disables` at ceiling 0, usage 12345 MB. -/
theorem zero_ceiling_never_disables_witness :
    getMemoryUsagePercentage 0 12345 = 0 ∧
    updateStatus (getMemoryUsagePercentage 0 12345) true = false :=
  zero_ceiling_never_disables 0 12345 true (by decide)

end DuckEx
